import Mathlib

/-!
Verification of tessa.py, a file-hashing companion tool.

The Python source is shallowly embedded: bytes are `Nat`, file contents are
`List Nat`, and the hashlib incremental digest object is modelled abstractly
by its accumulated input — `update` concatenates bytes onto the state and
`hexdigest` applies an algorithm-specific function `hexOf` from the full
accumulated byte sequence to a hex string (hashlib documents that feeding
input incrementally is equivalent to feeding the concatenation at once).
Fallible operations (file reads, algorithm construction, probe calls) are
modelled with `Except`/`Option`; Python truthiness of optional strings is
modelled explicitly (absent or empty is falsy).  Python str.lower and
str.strip are modelled executably over `String.data` (ASCII lowercasing and
whitespace stripping, which covers the hex digests and algorithm names the
tool handles).
-/

namespace Tessa

/-! ## Python string primitives -/

/-- Python str.lower on a single character (ASCII range, as used for hex
digests and algorithm names): uppercase letters move down by 32. -/
def pyLowerChar (c : Char) : Char :=
  if 65 ≤ c.toNat ∧ c.toNat ≤ 90 then Char.ofNat (c.toNat + 32) else c

/-- Python str.lower over a whole string. -/
def pyLower (s : String) : String := ⟨s.data.map pyLowerChar⟩

/-- Python str.strip: drop whitespace from both ends. -/
def pyStrip (s : String) : String :=
  ⟨((s.data.dropWhile Char.isWhitespace).reverse.dropWhile Char.isWhitespace).reverse⟩

theorem toNat_ofNat_of_valid {n : Nat} (h : n < 55296) : (Char.ofNat n).toNat = n := by
  rw [Char.ofNat, dif_pos (Or.inl h)]
  rfl

theorem pyLowerChar_idem (c : Char) : pyLowerChar (pyLowerChar c) = pyLowerChar c := by
  unfold pyLowerChar
  by_cases h : 65 ≤ c.toNat ∧ c.toNat ≤ 90
  · rw [if_pos h, if_neg]
    rw [toNat_ofNat_of_valid (by omega)]
    omega
  · rw [if_neg h, if_neg h]

theorem pyLower_idem (s : String) : pyLower (pyLower s) = pyLower s := by
  unfold pyLower
  apply congrArg String.mk
  rw [List.map_map]
  exact List.map_congr_left fun c _ => pyLowerChar_idem c

/-! ## Lexicographic string order (Python string comparison, used by sorted) -/

/-- Lexicographic comparison of character lists by code point, as Python
compares strings. -/
def charListLe : List Char → List Char → Bool
  | [], _ => true
  | _ :: _, [] => false
  | c :: cs, d :: ds => if c < d then true else if d < c then false else charListLe cs ds

/-- Python string less-or-equal, lexicographic by code point. -/
def pyStrLe (a b : String) : Bool := charListLe a.data b.data

/-- The ordering relation used to state sortedness of the algorithm list. -/
def StrLe (a b : String) : Prop := pyStrLe a b = true

instance : DecidableRel StrLe := fun a b => inferInstanceAs (Decidable (pyStrLe a b = true))

theorem charListLe_total : ∀ a b, charListLe a b = true ∨ charListLe b a = true
  | [], _ => Or.inl rfl
  | _ :: _, [] => Or.inr rfl
  | c :: cs, d :: ds => by
    rcases lt_trichotomy c d with h | h | h
    · left; simp [charListLe, h]
    · subst h
      rcases charListLe_total cs ds with ih | ih
      · left; simp [charListLe, lt_irrefl, ih]
      · right; simp [charListLe, lt_irrefl, ih]
    · right; simp [charListLe, h]

theorem charListLe_trans : ∀ a b c, charListLe a b = true → charListLe b c = true →
    charListLe a c = true
  | [], _, _, _, _ => rfl
  | _ :: _, [], _, hab, _ => by simp [charListLe] at hab
  | _ :: _, _ :: _, [], _, hbc => by simp [charListLe] at hbc
  | x :: xs, y :: ys, z :: zs, hab, hbc => by
    simp only [charListLe] at hab hbc ⊢
    rcases lt_trichotomy x y with hxy | hxy | hxy
    · rcases lt_trichotomy y z with hyz | hyz | hyz
      · simp [lt_trans hxy hyz]
      · subst hyz; simp [hxy]
      · simp [hyz, not_lt_of_lt hyz] at hbc
    · subst hxy
      rcases lt_trichotomy x z with hyz | hyz | hyz
      · simp [hyz]
      · subst hyz
        simp only [lt_irrefl, if_false] at hab hbc ⊢
        exact charListLe_trans xs ys zs hab hbc
      · simp [hyz, not_lt_of_lt hyz] at hbc
    · simp [hxy, not_lt_of_lt hxy] at hab

instance : IsTotal String StrLe :=
  ⟨fun a b => charListLe_total a.data b.data⟩

instance : IsTrans String StrLe :=
  ⟨fun a b c => charListLe_trans a.data b.data c.data⟩

/-! ## Digest Engine (tessa.py lines 33-47) -/

/-- CHUNK_SIZE constant from tessa.py (line 9). -/
def CHUNK_SIZE : Nat := 8192

/-- The freshly instantiated hashlib state: no bytes fed yet. -/
def hash_init : List Nat := []

/-- hashlib update: feeding a chunk appends it to the accumulated input. -/
def hash_update (state chunk : List Nat) : List Nat := state ++ chunk

/-- The read loop of compute_hash (tessa.py lines 41-45): repeatedly take
`n`-byte chunks from the remaining content until it is exhausted.  Fuel
recursion (fuel bounds the remaining length) keeps the definition
structurally recursive; `readChunks` supplies enough fuel. -/
def readChunksAux (n : Nat) : Nat → List Nat → List (List Nat)
  | 0, _ => []
  | fuel + 1, l => if l = [] then [] else l.take n :: readChunksAux n fuel (l.drop n)

/-- All chunks the read loop yields for a given content. -/
def readChunks (n : Nat) (l : List Nat) : List (List Nat) := readChunksAux n l.length l

/-- The digest compute_hash produces on a successfully read content: feed
each 8192-byte chunk in order into the incremental state, then finalize. -/
def compute_hash_stream (hexOf : List Nat → String) (content : List Nat) : String :=
  hexOf (List.foldl hash_update hash_init (readChunks CHUNK_SIZE content))

/-- Hashing the whole content in a single pass: one update with the full
content on a fresh state, then finalize. -/
def single_pass_hash (hexOf : List Nat → String) (content : List Nat) : String :=
  hexOf (hash_update hash_init content)

theorem readChunksAux_flatten (n : Nat) (hn : n ≠ 0) :
    ∀ fuel l, List.length l ≤ fuel → (readChunksAux n fuel l).flatten = l := by
  intro fuel
  induction fuel with
  | zero =>
    intro l hl
    have : l = [] := List.eq_nil_of_length_eq_zero (Nat.le_zero.mp hl)
    simp [this, readChunksAux]
  | succ fuel ih =>
    intro l hl
    by_cases he : l = []
    · simp [he, readChunksAux]
    · have hpos : 0 < l.length := List.length_pos.mpr he
      rw [readChunksAux, if_neg he, List.flatten_cons]
      rw [ih (l.drop n) (by simp [List.length_drop]; omega)]
      exact List.take_append_drop n l

theorem readChunks_flatten (n : Nat) (hn : n ≠ 0) (l : List Nat) :
    (readChunks n l).flatten = l :=
  readChunksAux_flatten n hn l.length l (Nat.le_refl _)

theorem foldl_hash_update (chunks : List (List Nat)) :
    ∀ init, List.foldl hash_update init chunks = init ++ chunks.flatten := by
  induction chunks with
  | nil => intro init; simp
  | cons c cs ih => intro init; simp [hash_update, ih, List.append_assoc]

/-- C1: for every file content and every algorithm (abstract finalizer
`hexOf`), compute_hash, which reads the file in fixed 8192-byte chunks and
feeds each chunk in order into the incremental hash state, returns the same
hexadecimal digest as hashing the entire content in a single pass. -/
theorem compute_hash_chunked_eq_single_pass (hexOf : List Nat → String) (content : List Nat) :
    compute_hash_stream hexOf content = single_pass_hash hexOf content := by
  unfold compute_hash_stream single_pass_hash
  rw [foldl_hash_update, readChunks_flatten CHUNK_SIZE (by decide)]
  rfl

/-! ## Algorithm Registry (tessa.py lines 15-30)

The probe at line 23, hashlib.new(candidate).hexdigest(), is an external
call; its observable behaviours are: success, raising TypeError, raising
ValueError (the two classes caught at line 24), or raising some other
exception (which the except clause at line 24 does not catch). -/

/-- Observable outcome of the probe hashlib.new(name).hexdigest(). -/
inductive ProbeOutcome
  | ok
  | typeError
  | valueError
  | raised : String → ProbeOutcome
deriving DecidableEq

/-- The loop of _fixed_digest_algorithms (tessa.py lines 17-26): accumulate
lowercased names whose probe succeeds, skipping names already accumulated,
silently dropping TypeError/ValueError failures, and propagating any other
exception (modelled as Except.error). -/
def buildFixed (probe : String → ProbeOutcome) : List String → List String →
    Except String (List String)
  | acc, [] => Except.ok acc
  | acc, name :: rest =>
    let candidate := pyLower name
    if candidate ∈ acc then buildFixed probe acc rest
    else
      match probe candidate with
      | ProbeOutcome.ok => buildFixed probe (candidate :: acc) rest
      | ProbeOutcome.typeError => buildFixed probe acc rest
      | ProbeOutcome.valueError => buildFixed probe acc rest
      | ProbeOutcome.raised e => Except.error e

/-- Model of _fixed_digest_algorithms (tessa.py lines 15-27): run the
accumulating loop over the available algorithm names, then return the
collected set sorted lexicographically (tuple(sorted(fixed)), line 27). -/
def fixed_digest_algorithms (probe : String → ProbeOutcome) (available : List String) :
    Except String (List String) :=
  (buildFixed probe [] available).map (fun l => List.insertionSort StrLe l)

/-! ## Fallible Digest Engine (tessa.py lines 33-47)

compute_hash first constructs the hash object (hashlib.new, re-raising
ValueError with its own message, lines 35-38) and then opens and reads the
file (lines 40-45); an OSError from open/read propagates uncaught.  The
registry of constructible algorithms is an abstract map from names to
finalizers; the outcome of opening-and-reading the file is an abstract
Except value. -/

/-- Errors compute_hash can raise: the re-raised ValueError for an
unconstructible algorithm name, or an I/O error from open/read. -/
inductive HashError
  | unsupportedAlgorithm : String → HashError
  | ioError : String → HashError
deriving DecidableEq

/-- Model of compute_hash (tessa.py lines 33-47). -/
def compute_hash (registry : String → Option (List Nat → String))
    (readResult : Except String (List Nat)) (algorithm : String) :
    Except HashError String :=
  match registry algorithm with
  | none => Except.error (HashError.unsupportedAlgorithm
      ("Unsupported hash algorithm: " ++ algorithm))
  | some hexOf =>
    match readResult with
    | Except.error msg => Except.error (HashError.ioError msg)
    | Except.ok content => Except.ok (compute_hash_stream hexOf content)

/-! ## Report Formatter (tessa.py lines 116-158) -/

/-- Model of compare_and_report (tessa.py lines 116-139): compute the hash
(returning none if any exception was raised), lowercase the computed digest,
and compare it against the expected string exactly as supplied. -/
def compare_and_report (registry : String → Option (List Nat → String))
    (readResult : Except String (List Nat)) (expected algorithm : String) :
    Option Bool :=
  match compute_hash registry readResult algorithm with
  | Except.error _ => none
  | Except.ok actual => some (pyLower actual == expected)

/-- Model of generate_and_report (tessa.py lines 142-158): compute the hash
(returning none if any exception was raised) and return it lowercased. -/
def generate_and_report (registry : String → Option (List Nat → String))
    (readResult : Except String (List Nat)) (algorithm : String) :
    Option String :=
  match compute_hash registry readResult algorithm with
  | Except.error _ => none
  | Except.ok actual => some (pyLower actual)

/-! ## Interaction Shell: non-interactive mode (tessa.py lines 221-269) -/

/-- The parsed command-line arguments (tessa.py lines 222-245).  argparse
leaves file and expected as None when the flag is absent; algo defaults to
sha256 and is validated against SUPPORTED_ALGORITHMS by the parser. -/
structure Args where
  file : Option String
  expected : Option String
  algo : String
  generate : Bool

/-- Model of the body of main after argument parsing (tessa.py lines
247-269).  The result is the process exit status: some n models sys.exit(n),
none models falling through to run_menu() (interactive mode).  The
environment is abstract: isfile is os.path.isfile, registry and readAll
feed compute_hash. -/
def main_model (isfile : String → Bool)
    (registry : String → Option (List Nat → String))
    (readAll : String → Except String (List Nat))
    (args : Args) : Option Nat :=
  match args.file with
  | none => none
  | some fp =>
    if fp = "" then none
    else if isfile fp = false then some 2
    else if args.generate then
      match generate_and_report registry (readAll fp) args.algo with
      | some _ => some 0
      | none => some 2
    else
      match args.expected with
      | none => some 2
      | some e =>
        if e = "" then some 2
        else
          match compare_and_report registry (readAll fp) (pyLower (pyStrip e)) args.algo with
          | some true => some 0
          | some false => some 1
          | none => some 2

/-! ## Interaction Shell: menu prompts and CompareFlow (tessa.py lines 77-182)

Prompts consume lines from an input stream (a list of strings).  Each prompt
returns the prompt result paired with the remaining stream; if the stream
runs out, the outer none models the EOFError input() would raise. -/

/-- Model of prompt_existing_file (tessa.py lines 77-84). -/
def prompt_existing_file (isfile : String → Bool) :
    List String → Option (Option String × List String)
  | [] => none
  | line :: rest =>
    let path := pyStrip line
    if path = "" then some (none, rest)
    else if isfile path then some (some path, rest)
    else prompt_existing_file isfile rest

/-- Model of prompt_expected_hash (tessa.py lines 87-92): strip and
lowercase the line; empty means abort, anything else is returned at once. -/
def prompt_expected_hash :
    List String → Option (Option String × List String)
  | [] => none
  | line :: rest =>
    let value := pyLower (pyStrip line)
    if value = "" then some (none, rest) else some (some value, rest)

/-- Model of prompt_algorithm (tessa.py lines 95-113): empty input selects
the default, the token back aborts, the token default is replaced by the
default and then checked for membership, unsupported names re-prompt. -/
def prompt_algorithm (supported : List String) (dflt : String) :
    List String → Option (Option String × List String)
  | [] => none
  | line :: rest =>
    let algo := pyLower (pyStrip line)
    if algo = "" then some (some dflt, rest)
    else if algo = "back" then some (none, rest)
    else
      let algo2 := if algo = "default" then dflt else algo
      if algo2 ∈ supported then some (some algo2, rest)
      else prompt_algorithm supported dflt rest

/-- Outcome of one run of the CompareFlow menu action. -/
inductive FlowOutcome
  | abortedFile
  | abortedHash
  | abortedAlgo
  | ran : Option Bool → FlowOutcome
  | eof
deriving DecidableEq

/-- Model of compare_hashes (tessa.py lines 161-182): prompt for file,
expected hash and algorithm in order, returning to the menu on any abort,
and otherwise running compare_and_report. -/
def compare_hashes (isfile : String → Bool) (supported : List String)
    (registry : String → Option (List Nat → String))
    (readAll : String → Except String (List Nat))
    (inputs : List String) : FlowOutcome :=
  match prompt_existing_file isfile inputs with
  | none => FlowOutcome.eof
  | some (none, _) => FlowOutcome.abortedFile
  | some (some fp, rest) =>
    match prompt_expected_hash rest with
    | none => FlowOutcome.eof
    | some (none, _) => FlowOutcome.abortedHash
    | some (some eh, rest2) =>
      match prompt_algorithm supported "sha256" rest2 with
      | none => FlowOutcome.eof
      | some (none, _) => FlowOutcome.abortedAlgo
      | some (some algo, _) =>
        FlowOutcome.ran (compare_and_report registry (readAll fp) eh algo)

/-! ## Registry lemmas -/

theorem buildFixed_spec (probe : String → ProbeOutcome) :
    ∀ names acc l, buildFixed probe acc names = Except.ok l →
      ((∀ s, s ∈ l ↔ s ∈ acc ∨ (probe s = ProbeOutcome.ok ∧ ∃ n ∈ names, pyLower n = s)) ∧
        (acc.Nodup → l.Nodup))
  | [], acc, l, h => by
    obtain rfl : acc = l := Except.ok.inj h
    exact ⟨fun s => by simp, id⟩
  | name :: rest, acc, l, h => by
    simp only [buildFixed] at h
    by_cases hin : pyLower name ∈ acc
    · rw [if_pos hin] at h
      obtain ⟨hmem, hnd⟩ := buildFixed_spec probe rest acc l h
      refine ⟨fun s => ?_, hnd⟩
      rw [hmem s]
      constructor
      · rintro (h1 | ⟨hp, n, hn, hl⟩)
        · exact Or.inl h1
        · exact Or.inr ⟨hp, n, List.mem_cons_of_mem _ hn, hl⟩
      · rintro (h1 | ⟨hp, n, hn, hl⟩)
        · exact Or.inl h1
        · rcases List.mem_cons.mp hn with rfl | hn2
          · exact Or.inl (hl ▸ hin)
          · exact Or.inr ⟨hp, n, hn2, hl⟩
    · rw [if_neg hin] at h
      cases hp : probe (pyLower name) with
      | ok =>
        simp only [hp] at h
        obtain ⟨hmem, hnd⟩ := buildFixed_spec probe rest (pyLower name :: acc) l h
        refine ⟨fun s => ?_, fun hacc => hnd (List.nodup_cons.mpr ⟨hin, hacc⟩)⟩
        rw [hmem s]
        constructor
        · rintro (h1 | ⟨hp2, n, hn, hl⟩)
          · rcases List.mem_cons.mp h1 with rfl | h2
            · exact Or.inr ⟨hp, name, List.mem_cons_self _ _, rfl⟩
            · exact Or.inl h2
          · exact Or.inr ⟨hp2, n, List.mem_cons_of_mem _ hn, hl⟩
        · rintro (h1 | ⟨hp2, n, hn, hl⟩)
          · exact Or.inl (List.mem_cons_of_mem _ h1)
          · rcases List.mem_cons.mp hn with rfl | hn2
            · exact Or.inl (hl ▸ List.mem_cons_self _ _)
            · exact Or.inr ⟨hp2, n, hn2, hl⟩
      | typeError =>
        simp only [hp] at h
        obtain ⟨hmem, hnd⟩ := buildFixed_spec probe rest acc l h
        refine ⟨fun s => ?_, hnd⟩
        rw [hmem s]
        constructor
        · rintro (h1 | ⟨hp2, n, hn, hl⟩)
          · exact Or.inl h1
          · exact Or.inr ⟨hp2, n, List.mem_cons_of_mem _ hn, hl⟩
        · rintro (h1 | ⟨hp2, n, hn, hl⟩)
          · exact Or.inl h1
          · rcases List.mem_cons.mp hn with rfl | hn2
            · exact absurd (hp2.symm.trans (hl ▸ hp)) (by simp)
            · exact Or.inr ⟨hp2, n, hn2, hl⟩
      | valueError =>
        simp only [hp] at h
        obtain ⟨hmem, hnd⟩ := buildFixed_spec probe rest acc l h
        refine ⟨fun s => ?_, hnd⟩
        rw [hmem s]
        constructor
        · rintro (h1 | ⟨hp2, n, hn, hl⟩)
          · exact Or.inl h1
          · exact Or.inr ⟨hp2, n, List.mem_cons_of_mem _ hn, hl⟩
        · rintro (h1 | ⟨hp2, n, hn, hl⟩)
          · exact Or.inl h1
          · rcases List.mem_cons.mp hn with rfl | hn2
            · exact absurd (hp2.symm.trans (hl ▸ hp)) (by simp)
            · exact Or.inr ⟨hp2, n, hn2, hl⟩
      | raised e =>
        simp only [hp] at h
        exact Except.noConfusion h

theorem buildFixed_isOk (probe : String → ProbeOutcome)
    (h : ∀ n e, probe n ≠ ProbeOutcome.raised e) :
    ∀ names acc, ∃ l, buildFixed probe acc names = Except.ok l := by
  intro names
  induction names with
  | nil => intro acc; exact ⟨acc, rfl⟩
  | cons name rest ih =>
    intro acc
    simp only [buildFixed]
    by_cases hin : pyLower name ∈ acc
    · rw [if_pos hin]; exact ih acc
    · rw [if_neg hin]
      cases hp : probe (pyLower name) with
      | ok => exact ih _
      | typeError => exact ih acc
      | valueError => exact ih acc
      | raised e => exact absurd hp (h _ e)

/-- C4: fixed_digest_algorithms (bound to SUPPORTED_ALGORITHMS at module
load) returns, whenever it terminates normally, a lexicographically sorted,
duplicate-free collection of lowercase names containing exactly those
available algorithms whose no-argument instantiation-and-digest probe
succeeds; an algorithm whose probe does not succeed (such as shake_256,
whose hexdigest call raises TypeError for lack of a length argument) is
excluded. -/
theorem supported_algorithms_spec (probe : String → ProbeOutcome) (available l : List String)
    (h : fixed_digest_algorithms probe available = Except.ok l) :
    List.Sorted StrLe l ∧ l.Nodup ∧
      (∀ s, s ∈ l ↔ (probe s = ProbeOutcome.ok ∧ ∃ n ∈ available, pyLower n = s)) ∧
      (∀ s ∈ l, pyLower s = s) ∧
      (probe "shake_256" ≠ ProbeOutcome.ok → "shake_256" ∉ l) := by
  unfold fixed_digest_algorithms at h
  cases hb : buildFixed probe [] available with
  | error e => rw [hb] at h; exact Except.noConfusion h
  | ok l0 =>
    rw [hb] at h
    obtain rfl : List.insertionSort StrLe l0 = l := Except.ok.inj h
    obtain ⟨hmem, hnd⟩ := buildFixed_spec probe available [] l0 hb
    have hmem2 : ∀ s, s ∈ List.insertionSort StrLe l0 ↔
        (probe s = ProbeOutcome.ok ∧ ∃ n ∈ available, pyLower n = s) := by
      intro s
      rw [List.mem_insertionSort, hmem s]
      simp
    refine ⟨List.sorted_insertionSort StrLe l0,
      ((List.perm_insertionSort StrLe l0).nodup_iff).mpr (hnd List.nodup_nil),
      hmem2, ?_, ?_⟩
    · intro s hs
      obtain ⟨_, n, _, hl2⟩ := (hmem2 s).mp hs
      rw [← hl2]
      exact pyLower_idem n
    · intro hnp hmem3
      exact hnp ((hmem2 _).mp hmem3).1

/-- C9 counterexample: the except clause at tessa.py line 24 catches only
TypeError and ValueError, so a probe that raises any other exception class
escapes from the registry computation instead of terminating it normally:
with one available name and a probe raising some other exception, the
computation propagates that exception (modelled as Except.error). -/
theorem registry_exception_escapes_cex :
    fixed_digest_algorithms (fun _ => ProbeOutcome.raised "boom") ["md5"]
      = Except.error "boom" := rfl

/-- C9 amended: whenever every probe failure is a TypeError or a ValueError
(the classes the except clause catches — the only classes the hashlib probe
raises in practice), the registry computation terminates normally and
silently excludes every algorithm whose probe fails rather than reporting
an error. -/
theorem registry_no_escape_of_catchable (probe : String → ProbeOutcome) (available : List String)
    (h : ∀ n e, probe n ≠ ProbeOutcome.raised e) :
    ∃ l, fixed_digest_algorithms probe available = Except.ok l ∧
      ∀ s, probe s ≠ ProbeOutcome.ok → s ∉ l := by
  obtain ⟨l0, hl0⟩ := buildFixed_isOk probe h available []
  refine ⟨List.insertionSort StrLe l0, ?_, ?_⟩
  · unfold fixed_digest_algorithms
    rw [hl0]
    rfl
  · intro s hs hmem
    rw [List.mem_insertionSort] at hmem
    rcases ((buildFixed_spec probe available [] l0 hl0).1 s).mp hmem with h1 | ⟨hp, _⟩
    · exact absurd h1 (List.not_mem_nil s)
    · exact hs hp

/-! ## Digest Engine error claims -/

/-- C6: compute_hash fails with the re-raised ValueError (modelled as
HashError.unsupportedAlgorithm) when the algorithm name is not constructible
by the underlying library, fails with an I/O error (HashError.ioError) when
opening or reading the file fails, and returns a digest only when both
steps succeed — the errors are the function's result, surfaced to the
caller rather than swallowed inside it. -/
theorem compute_hash_error_spec (registry : String → Option (List Nat → String))
    (readResult : Except String (List Nat)) (algorithm : String) :
    (registry algorithm = none →
      compute_hash registry readResult algorithm =
        Except.error (HashError.unsupportedAlgorithm
          ("Unsupported hash algorithm: " ++ algorithm))) ∧
    (∀ hexOf msg, registry algorithm = some hexOf → readResult = Except.error msg →
      compute_hash registry readResult algorithm = Except.error (HashError.ioError msg)) ∧
    (∀ d, compute_hash registry readResult algorithm = Except.ok d →
      (∃ hexOf, registry algorithm = some hexOf) ∧ ∃ content, readResult = Except.ok content) := by
  refine ⟨fun hnone => ?_, fun hexOf msg hsome herr => ?_, fun d hok => ?_⟩
  · unfold compute_hash
    rw [hnone]
  · unfold compute_hash
    rw [hsome, herr]
  · unfold compute_hash at hok
    cases hr : registry algorithm with
    | none => rw [hr] at hok; exact Except.noConfusion hok
    | some hexOf =>
      rw [hr] at hok
      cases hread : readResult with
      | error msg => rw [hread] at hok; exact Except.noConfusion hok
      | ok content => exact ⟨⟨hexOf, rfl⟩, content, rfl⟩

/-- Witness for C6: with no constructible algorithms, compute_hash surfaces
the unsupported-algorithm error for the name foo. -/
theorem compute_hash_error_spec_witness :
    compute_hash (fun _ => none) (Except.ok []) "foo"
      = Except.error (HashError.unsupportedAlgorithm "Unsupported hash algorithm: foo") :=
  (compute_hash_error_spec (fun _ => none) (Except.ok []) "foo").1 rfl

/-! ## Report Formatter claims -/

/-- C2 counterexample: compare_and_report lowercases only the computed
digest, not the expected string, so with computed digest ab12 and expected
string AB12 (equal after lowercasing both) the outcome is not Match — the
claimed equivalence fails at this input. -/
theorem compare_case_sensitivity_cex :
    ¬ (compare_and_report (fun _ => some (fun _ => "ab12")) (Except.ok []) "AB12" "sha256"
        = some true ↔ pyLower "ab12" = pyLower "AB12") := by
  decide

/-- C2 amended: compare_and_report yields Match exactly when the lowercased
computed digest equals the expected string as supplied; when the supplied
expected string is already lowercase — which both call sites guarantee
(prompt_expected_hash lowercases at tessa.py line 89, main lowercases
--expected at line 263) — this coincides with equality after lowercasing
both. -/
theorem compare_and_report_match_iff (registry : String → Option (List Nat → String))
    (readResult : Except String (List Nat)) (expected algorithm a : String)
    (hok : compute_hash registry readResult algorithm = Except.ok a)
    (hlow : pyLower expected = expected) :
    (compare_and_report registry readResult expected algorithm = some true ↔
      pyLower a = pyLower expected) := by
  unfold compare_and_report
  rw [hok]
  constructor
  · intro hsome
    have hbeq : (pyLower a == expected) = true := by
      have := Option.some.inj hsome
      exact this
    rw [hlow]
    exact eq_of_beq hbeq
  · intro heq
    rw [hlow] at heq
    show some (pyLower a == expected) = some true
    rw [heq]
    simp

/-- Witness for C2 amended: lowercase expected digest ab12 against computed
digest AB12 yields Match. -/
theorem compare_and_report_match_iff_witness :
    compare_and_report (fun _ => some (fun _ => "AB12")) (Except.ok []) "ab12" "sha256"
      = some true :=
  (compare_and_report_match_iff (fun _ => some (fun _ => "AB12")) (Except.ok [])
    "ab12" "sha256" "AB12" rfl rfl).mpr (by decide)

/-! ## Non-interactive mode claims -/

/-- C3: in non-interactive compare mode (file flag supplied with a non-empty
path, the file exists, generate not set): with no expected hash the program
exits with status 2; otherwise it exits 0 when the computed digest matches
the (stripped, lowercased) expected value, 1 on mismatch, and 2 when digest
computation fails. -/
theorem main_compare_exit_codes (isfile : String → Bool)
    (registry : String → Option (List Nat → String))
    (readAll : String → Except String (List Nat))
    (args : Args) (fp : String)
    (hf : args.file = some fp) (hne : fp ≠ "") (hex : isfile fp = true)
    (hg : args.generate = false) :
    (args.expected = none → main_model isfile registry readAll args = some 2) ∧
    (∀ e, args.expected = some e → e ≠ "" →
      main_model isfile registry readAll args =
        match compute_hash registry (readAll fp) args.algo with
        | Except.error _ => some 2
        | Except.ok a => if pyLower a = pyLower (pyStrip e) then some 0 else some 1) := by
  have hbase : main_model isfile registry readAll args =
      match args.expected with
      | none => some 2
      | some e =>
        if e = "" then some 2
        else
          match compare_and_report registry (readAll fp) (pyLower (pyStrip e)) args.algo with
          | some true => some 0
          | some false => some 1
          | none => some 2 := by
    unfold main_model
    rw [hf]
    simp only
    rw [if_neg hne, hex]
    rw [if_neg (by simp), hg]
    simp only [Bool.false_eq_true, if_false]
  constructor
  · intro hnone
    rw [hbase, hnone]
  · intro e he hne2
    rw [hbase, he]
    simp only [if_neg hne2]
    unfold compare_and_report
    cases hch : compute_hash registry (readAll fp) args.algo with
    | error err => rfl
    | ok a =>
      by_cases heq : pyLower a = pyLower (pyStrip e)
      · simp [heq]
      · have hbf : (pyLower a == pyLower (pyStrip e)) = false :=
          beq_eq_false_iff_ne.mpr heq
        simp [heq, hbf]

/-- Witness for C3: an existing file, matching expected hash (after case
normalization), compare mode: exit status 0. -/
theorem main_compare_exit_codes_witness :
    main_model (fun _ => true) (fun _ => some (fun _ => "ab")) (fun _ => Except.ok [])
      { file := some "f", expected := some "AB", algo := "sha256", generate := false }
      = some 0 := by
  have h := (main_compare_exit_codes (fun _ => true) (fun _ => some (fun _ => "ab"))
    (fun _ => Except.ok [])
    { file := some "f", expected := some "AB", algo := "sha256", generate := false }
    "f" rfl (by decide) rfl rfl).2 "AB" rfl (by decide)
  rw [h]
  decide

/-- C5 counterexample: a file path is supplied via the file flag as the
empty string (e.g. --file with an empty argument), yet the program falls
through to interactive menu mode (result none) because the Python truthiness
test at tessa.py line 247 treats the empty string like an absent flag. -/
theorem main_empty_file_flag_cex :
    ({ file := some "", expected := none, algo := "sha256", generate := false } : Args).file
        ≠ none ∧
      main_model (fun _ => true) (fun _ => none) (fun _ => Except.ok [])
        { file := some "", expected := none, algo := "sha256", generate := false } = none := by
  exact ⟨by decide, rfl⟩

/-- C5 amended: the program takes the non-interactive path (exiting with
some status and bypassing the menu) exactly when a non-empty file path is
supplied via the file flag; with the flag absent — or supplied as the empty
string — it falls through to interactive menu mode. -/
theorem main_noninteractive_iff (isfile : String → Bool)
    (registry : String → Option (List Nat → String))
    (readAll : String → Except String (List Nat)) (args : Args) :
    (main_model isfile registry readAll args).isSome = true ↔
      ∃ fp, args.file = some fp ∧ fp ≠ "" := by
  cases hfile : args.file with
  | none => simp [main_model, hfile]
  | some fp =>
    by_cases he : fp = ""
    · subst he
      simp [main_model, hfile]
    · simp only [main_model, hfile, if_neg he]
      constructor
      · intro _
        exact ⟨fp, rfl, he⟩
      · intro _
        by_cases hi : isfile fp = false
        · rw [if_pos hi]
          rfl
        · rw [if_neg hi]
          by_cases hg : args.generate
          · rw [if_pos hg]
            cases generate_and_report registry (readAll fp) args.algo <;> rfl
          · rw [if_neg hg]
            cases args.expected with
            | none => rfl
            | some e =>
              simp only
              by_cases hee : e = ""
              · rw [if_pos hee]
                rfl
              · rw [if_neg hee]
                rcases compare_and_report registry (readAll fp) (pyLower (pyStrip e)) args.algo
                  with _ | b
                · rfl
                · cases b <;> rfl

/-- C7: with a non-empty file path supplied whose existence check fails,
main exits with status 2 — for every registry and every read behaviour, so
the digest engine is never consulted. -/
theorem main_missing_file_exit2 (isfile : String → Bool)
    (registry : String → Option (List Nat → String))
    (readAll : String → Except String (List Nat)) (args : Args) (fp : String)
    (hf : args.file = some fp) (hne : fp ≠ "") (hmiss : isfile fp = false) :
    main_model isfile registry readAll args = some 2 := by
  unfold main_model
  rw [hf]
  simp only
  rw [if_neg hne, hmiss]
  rfl

/-- Witness for C7: --file nonexistent.bin --expected abc with a file check
that fails exits 2 (the registry and reader passed here would produce a
digest, but are never consulted). -/
theorem main_missing_file_exit2_witness :
    main_model (fun _ => false) (fun _ => some (fun _ => "ab")) (fun _ => Except.ok [])
      { file := some "nonexistent.bin", expected := some "abc", algo := "sha256",
        generate := false } = some 2 :=
  main_missing_file_exit2 (fun _ => false) (fun _ => some (fun _ => "ab"))
    (fun _ => Except.ok [])
    { file := some "nonexistent.bin", expected := some "abc", algo := "sha256",
      generate := false }
    "nonexistent.bin" rfl (by decide) rfl

/-- C10 counterexample: surrounding whitespace in the supplied expected
value can change the exit code: with expected supplied as the empty string
main exits 2 (missing argument), while with a whitespace-only string — the
empty expected value surrounded by whitespace, normalizing to the same
stripped lowercase value — it proceeds to comparison and exits 1. -/
theorem main_expected_whitespace_cex :
    main_model (fun _ => true) (fun _ => some (fun _ => "ab")) (fun _ => Except.ok [])
        { file := some "f", expected := some "", algo := "sha256", generate := false }
        = some 2 ∧
      main_model (fun _ => true) (fun _ => some (fun _ => "ab")) (fun _ => Except.ok [])
        { file := some "f", expected := some " ", algo := "sha256", generate := false }
        = some 1 ∧
      pyLower (pyStrip "") = pyLower (pyStrip " ") := by
  refine ⟨rfl, ?_, rfl⟩
  decide

/-- C10 amended: the --expected value is stripped of surrounding whitespace
and lowercased before comparison, so for every file and every non-empty
expected string the verdict and exit code are unchanged by surrounding
whitespace or letter case (an expected value supplied as the empty string
is instead treated as missing and exits 2). -/
theorem main_expected_normalization (isfile : String → Bool)
    (registry : String → Option (List Nat → String))
    (readAll : String → Except String (List Nat))
    (fp algo : String) (gen : Bool) (e1 e2 : String)
    (h1 : e1 ≠ "") (h2 : e2 ≠ "")
    (h : pyLower (pyStrip e1) = pyLower (pyStrip e2)) :
    main_model isfile registry readAll
        { file := some fp, expected := some e1, algo := algo, generate := gen } =
      main_model isfile registry readAll
        { file := some fp, expected := some e2, algo := algo, generate := gen } := by
  unfold main_model
  simp only
  by_cases hfp : fp = ""
  · rw [if_pos hfp, if_pos hfp]
  · rw [if_neg hfp, if_neg hfp]
    by_cases hi : isfile fp = false
    · rw [if_pos hi, if_pos hi]
    · rw [if_neg hi, if_neg hi]
      by_cases hg : gen = true
      · rw [if_pos hg, if_pos hg]
      · rw [if_neg hg, if_neg hg]
        rw [if_neg h1, if_neg h2, h]

/-- Witness for C10 amended: expected values like " AB " and ab produce the
same exit status. -/
theorem main_expected_normalization_witness :
    main_model (fun _ => true) (fun _ => some (fun _ => "ab")) (fun _ => Except.ok [])
        { file := some "f", expected := some " AB ", algo := "sha256", generate := false } =
      main_model (fun _ => true) (fun _ => some (fun _ => "ab")) (fun _ => Except.ok [])
        { file := some "f", expected := some "ab", algo := "sha256", generate := false } :=
  main_expected_normalization (fun _ => true) (fun _ => some (fun _ => "ab"))
    (fun _ => Except.ok []) "f" "sha256" false " AB " "ab"
    (by decide) (by decide) (by decide)

/-- Witness for C5 amended: a non-empty file flag takes the non-interactive
path. -/
theorem main_noninteractive_iff_witness :
    (main_model (fun _ => true) (fun _ => some (fun _ => "ab")) (fun _ => Except.ok [])
      { file := some "f", expected := none, algo := "sha256", generate := false }).isSome
      = true :=
  (main_noninteractive_iff (fun _ => true) (fun _ => some (fun _ => "ab"))
    (fun _ => Except.ok [])
    { file := some "f", expected := none, algo := "sha256", generate := false }).mpr
    ⟨"f", rfl, by decide⟩

/-- Witness for C4: probing four available names (one duplicate differing
only in case, one shake-style failure) yields the sorted duplicate-free
list [md5, sha256], from which shake_256 is excluded. -/
theorem supported_algorithms_spec_witness :
    List.Sorted StrLe ["md5", "sha256"] ∧
      ("shake_256" ∉ (["md5", "sha256"] : List String)) := by
  have h := supported_algorithms_spec
    (fun s => if s = "md5" ∨ s = "sha256" then ProbeOutcome.ok else ProbeOutcome.typeError)
    ["MD5", "shake_256", "sha256", "md5"] ["md5", "sha256"] rfl
  exact ⟨h.1, h.2.2.2.2 (by decide)⟩

/-- Witness for C9 amended: a probe that always raises ValueError terminates
normally with the empty supported list, excluding md5 silently. -/
theorem registry_no_escape_witness :
    fixed_digest_algorithms (fun _ => ProbeOutcome.valueError) ["md5"] = Except.ok [] ∧
      "md5" ∉ ([] : List String) := by
  obtain ⟨l, hl, hexcl⟩ := registry_no_escape_of_catchable (fun _ => ProbeOutcome.valueError)
    ["md5"] (fun n e h => ProbeOutcome.noConfusion h)
  have heval : fixed_digest_algorithms (fun _ => ProbeOutcome.valueError) ["md5"]
      = Except.ok ([] : List String) := rfl
  refine ⟨heval, ?_⟩
  have hle : l = [] := Except.ok.inj (hl.symm.trans heval)
  have hm := hexcl "md5" (fun hc => ProbeOutcome.noConfusion hc)
  rw [hle] at hm
  exact hm

/-! ## Menu CompareFlow claims -/

/-- C8: in the CompareFlow of the menu, empty (stripped) input at the
file-path prompt or at the expected-hash prompt, or the literal token back
at the algorithm prompt, aborts the flow back to the main menu — for every
registry and read behaviour, so the digest engine is never invoked — while
empty input at the algorithm prompt selects the default algorithm sha256
and the flow proceeds to compare_and_report. -/
theorem compare_flow_spec (isfile : String → Bool) (supported : List String)
    (registry : String → Option (List Nat → String))
    (readAll : String → Except String (List Nat)) :
    (∀ l rest, pyStrip l = "" →
      compare_hashes isfile supported registry readAll (l :: rest)
        = FlowOutcome.abortedFile) ∧
    (∀ fl hl rest, pyStrip fl ≠ "" → isfile (pyStrip fl) = true →
      pyLower (pyStrip hl) = "" →
      compare_hashes isfile supported registry readAll (fl :: hl :: rest)
        = FlowOutcome.abortedHash) ∧
    (∀ fl hl al rest, pyStrip fl ≠ "" → isfile (pyStrip fl) = true →
      pyLower (pyStrip hl) ≠ "" → pyLower (pyStrip al) = "back" →
      compare_hashes isfile supported registry readAll (fl :: hl :: al :: rest)
        = FlowOutcome.abortedAlgo) ∧
    (∀ fl hl al rest, pyStrip fl ≠ "" → isfile (pyStrip fl) = true →
      pyLower (pyStrip hl) ≠ "" → pyLower (pyStrip al) = "" →
      compare_hashes isfile supported registry readAll (fl :: hl :: al :: rest)
        = FlowOutcome.ran (compare_and_report registry (readAll (pyStrip fl))
            (pyLower (pyStrip hl)) "sha256")) := by
  have hback : ¬("back" : String) = "" := by decide
  refine ⟨?_, ?_, ?_, ?_⟩
  · intro l rest h
    simp [compare_hashes, prompt_existing_file, h]
  · intro fl hl rest h1 h2 h3
    simp [compare_hashes, prompt_existing_file, prompt_expected_hash, h1, h2, h3]
  · intro fl hl al rest h1 h2 h3 h4
    simp [compare_hashes, prompt_existing_file, prompt_expected_hash, prompt_algorithm,
      h1, h2, h3, h4, hback]
  · intro fl hl al rest h1 h2 h3 h4
    simp [compare_hashes, prompt_existing_file, prompt_expected_hash, prompt_algorithm,
      h1, h2, h3, h4]

/-- Witness for C8: inputs [f, AB, empty] with an existing file f run the
flow to completion with the default algorithm and a Match verdict. -/
theorem compare_flow_spec_witness :
    compare_hashes (fun s => s == "f") ["sha256"] (fun _ => some (fun _ => "ab"))
      (fun _ => Except.ok []) ["f", "AB", ""] = FlowOutcome.ran (some true) := by
  have h := (compare_flow_spec (fun s => s == "f") ["sha256"] (fun _ => some (fun _ => "ab"))
    (fun _ => Except.ok [])).2.2.2 "f" "AB" "" [] (by decide) (by decide) (by decide)
    (by decide)
  rw [h]
  decide

end Tessa
